import Mathlib

/-!
Verification development for the chatGPT-Widget backend
(`src/backend/server.js`).  The JavaScript request-boundary logic is
shallowly embedded: JSON values become an inductive type, `JSON.parse`
becomes a fuel-indexed recursive-descent parser, and each Express
handler becomes a total Lean function returning the response together
with the outbound calls it made.
-/

set_option maxRecDepth 4096

/-- A JSON value as produced by `JSON.parse`.  Numbers keep the literal
they were parsed from; no claim below depends on JS number formatting. -/
inductive Json where
  | null : Json
  | bool : Bool → Json
  | num  : String → Json
  | str  : String → Json
  | arr  : List Json → Json
  | obj  : List (String × Json) → Json

/-- Property lookup on a parsed JSON object: with duplicate keys,
`JSON.parse` keeps the last occurrence, so we search from the right. -/
def jsGetField (fields : List (String × Json)) (k : String) : Option Json :=
  match fields.reverse.find? (fun p => p.1 == k) with
  | some p => some p.2
  | none => none

/-- Property access `body.k` for a request body.  `express.json()` in
strict mode only ever delivers an object or an array as `req.body`;
property access on an array for a named key yields `undefined`. -/
def jsGet (body : Json) (k : String) : Option Json :=
  match body with
  | Json.obj fs => jsGetField fs k
  | _ => none

def Json.isArr : Json → Bool
  | Json.arr _ => true
  | _ => false

/-- Whether a numeric literal denotes zero (all mantissa digits are 0). -/
def numIsZero (lit : String) : Bool :=
  ((lit.data.takeWhile (fun c => c != 'e' && c != 'E')).filter Char.isDigit).all
    (fun c => c == '0')

/-- JavaScript truthiness of a JSON value. -/
def jsTruthy : Json → Bool
  | Json.null => false
  | Json.bool b => b
  | Json.num lit => !(numIsZero lit)
  | Json.str s => s != ""
  | Json.arr _ => true
  | Json.obj _ => true

mutual

/-- `String(v)` for a JSON value.  Arrays stringify as their elements
joined by commas with `null` contributing the empty string; objects
stringify as `[object Object]`; number formatting is approximated by
the stored literal (no claim depends on it). -/
def jsToString : Json → String
  | Json.null => "null"
  | Json.bool b => if b then "true" else "false"
  | Json.num lit => lit
  | Json.str s => s
  | Json.arr xs => String.intercalate "," (jsToStringElems xs)
  | Json.obj _ => "[object Object]"

def jsToStringElems : List Json → List String
  | [] => []
  | Json.null :: xs => "" :: jsToStringElems xs
  | x :: xs => jsToString x :: jsToStringElems xs

end

/-- The JavaScript `String.prototype.trim` whitespace set
(WhiteSpace plus LineTerminator). -/
def jsWsChar (c : Char) : Bool :=
  let n := c.toNat
  (n == 0x9) || (n == 0xA) || (n == 0xB) || (n == 0xC) || (n == 0xD) ||
  (n == 0x20) || (n == 0xA0) || (n == 0x1680) ||
  (decide (0x2000 ≤ n) && decide (n ≤ 0x200A)) ||
  (n == 0x2028) || (n == 0x2029) || (n == 0x202F) || (n == 0x205F) ||
  (n == 0x3000) || (n == 0xFEFF)

def jsTrimList (cs : List Char) : List Char :=
  ((cs.dropWhile jsWsChar).reverse.dropWhile jsWsChar).reverse

/-- `s.trim()`. -/
def jsTrim (s : String) : String := ⟨jsTrimList s.data⟩

/-- `s.split("\n")[0]`. -/
def firstLine (s : String) : String := ⟨s.data.takeWhile (fun c => c != '\n')⟩

/-! ## A model of `JSON.parse` (fuel-indexed recursive descent) -/

/-- JSON insignificant whitespace. -/
def isJsonWs (c : Char) : Bool :=
  (c == ' ') || (c == '\t') || (c == '\n') || (c == '\r')

def hexVal (c : Char) : Option Nat :=
  if c.isDigit then some (c.toNat - 48)
  else if 'a' ≤ c && c ≤ 'f' then some (c.toNat - 87)
  else if 'A' ≤ c && c ≤ 'F' then some (c.toNat - 55)
  else none

/-- Body of a JSON string after the opening quote.  Lone surrogate
escapes are approximated by `Char.ofNat` (no claim depends on them). -/
def parseStrBody : Nat → List Char → Option (List Char × List Char)
  | 0, _ => none
  | _ + 1, [] => none
  | _ + 1, '"' :: rest => some ([], rest)
  | fuel + 1, '\\' :: rest =>
    match rest with
    | [] => none
    | e :: rest2 =>
      let simpleEsc : Option Char :=
        if e == '"' then some '"'
        else if e == '\\' then some '\\'
        else if e == '/' then some '/'
        else if e == 'b' then some (Char.ofNat 0x8)
        else if e == 'f' then some (Char.ofNat 0xC)
        else if e == 'n' then some '\n'
        else if e == 'r' then some '\r'
        else if e == 't' then some '\t'
        else none
      match simpleEsc with
      | some c => (parseStrBody fuel rest2).map (fun p => (c :: p.1, p.2))
      | none =>
        if e == 'u' then
          match rest2 with
          | a :: b :: c :: d :: rest3 =>
            match hexVal a, hexVal b, hexVal c, hexVal d with
            | some ha, some hb, some hc, some hd =>
              (parseStrBody fuel rest3).map
                (fun p => (Char.ofNat (((ha * 16 + hb) * 16 + hc) * 16 + hd) :: p.1, p.2))
            | _, _, _, _ => none
          | _ => none
        else none
  | fuel + 1, c :: rest =>
    if c.toNat < 0x20 then none
    else (parseStrBody fuel rest).map (fun p => (c :: p.1, p.2))

/-- A JSON number literal: `-?(0|[1-9][0-9]*)(\.[0-9]+)?([eE][+-]?[0-9]+)?`. -/
def parseNum (cs : List Char) : Option (Json × List Char) :=
  let (sgn, r1) : List Char × List Char :=
    match cs with
    | '-' :: r => (['-'], r)
    | _ => ([], cs)
  match r1 with
  | [] => none
  | c :: r2 =>
    if !c.isDigit then none
    else
      let (intPart, rInt) : List Char × List Char :=
        if c == '0' then (['0'], r2)
        else (r1.takeWhile Char.isDigit, r1.dropWhile Char.isDigit)
      -- after a leading 0 no further digit may follow
      if c == '0' && (match rInt with | d :: _ => d.isDigit | [] => false) then none
      else
        let fracStep : Option (List Char × List Char) :=
          match rInt with
          | '.' :: r3 =>
            let fd := r3.takeWhile Char.isDigit
            if fd.isEmpty then none
            else some (intPart ++ '.' :: fd, r3.dropWhile Char.isDigit)
          | _ => some (intPart, rInt)
        match fracStep with
        | none => none
        | some (mant, r4) =>
          match r4 with
          | e :: r5 =>
            if e == 'e' || e == 'E' then
              let (esgn, r6) : List Char × List Char :=
                match r5 with
                | '+' :: r => (['+'], r)
                | '-' :: r => (['-'], r)
                | _ => ([], r5)
              let ed := r6.takeWhile Char.isDigit
              if ed.isEmpty then none
              else some (Json.num ⟨sgn ++ mant ++ e :: esgn ++ ed⟩, r6.dropWhile Char.isDigit)
            else some (Json.num ⟨sgn ++ mant⟩, r4)
          | [] => some (Json.num ⟨sgn ++ mant⟩, [])

mutual

def parseVal : Nat → List Char → Option (Json × List Char)
  | 0, _ => none
  | fuel + 1, cs =>
    let cs := cs.dropWhile isJsonWs
    match cs with
    | 'n' :: 'u' :: 'l' :: 'l' :: rest => some (Json.null, rest)
    | 't' :: 'r' :: 'u' :: 'e' :: rest => some (Json.bool true, rest)
    | 'f' :: 'a' :: 'l' :: 's' :: 'e' :: rest => some (Json.bool false, rest)
    | '"' :: rest => (parseStrBody (rest.length + 1) rest).map (fun p => (Json.str ⟨p.1⟩, p.2))
    | '[' :: rest =>
      let rest := rest.dropWhile isJsonWs
      (match rest with
       | ']' :: r2 => some (Json.arr [], r2)
       | _ => (parseElems fuel rest).map (fun p => (Json.arr p.1, p.2)))
    | '{' :: rest =>
      let rest := rest.dropWhile isJsonWs
      (match rest with
       | '}' :: r2 => some (Json.obj [], r2)
       | _ => (parseMembers fuel rest).map (fun p => (Json.obj p.1, p.2)))
    | _ => parseNum cs

def parseElems : Nat → List Char → Option (List Json × List Char)
  | 0, _ => none
  | fuel + 1, cs =>
    match parseVal fuel cs with
    | none => none
    | some (v, rest) =>
      let rest := rest.dropWhile isJsonWs
      match rest with
      | ',' :: r2 => (parseElems fuel r2).map (fun p => (v :: p.1, p.2))
      | ']' :: r2 => some ([v], r2)
      | _ => none

def parseMembers : Nat → List Char → Option (List (String × Json) × List Char)
  | 0, _ => none
  | fuel + 1, cs =>
    let cs := cs.dropWhile isJsonWs
    match cs with
    | '"' :: rest =>
      match parseStrBody (rest.length + 1) rest with
      | none => none
      | some (k, r1) =>
        let r1 := r1.dropWhile isJsonWs
        match r1 with
        | ':' :: r2 =>
          (match parseVal fuel r2 with
           | none => none
           | some (v, r3) =>
             let r3 := r3.dropWhile isJsonWs
             match r3 with
             | ',' :: r4 => (parseMembers fuel r4).map (fun p => ((⟨k⟩, v) :: p.1, p.2))
             | '}' :: r4 => some ([(⟨k⟩, v)], r4)
             | _ => none)
        | _ => none
    | _ => none

end

/-- `JSON.parse`: parse one JSON value and require only whitespace after. -/
def parseJson (s : String) : Option Json :=
  match parseVal (s.data.length * 2 + 8) s.data with
  | some (v, rest) => if (rest.dropWhile isJsonWs).isEmpty then some v else none
  | none => none

/-! ## ResponseCoercer: `tryParseJsonFromText` and the `/chat` shaping -/

/-- The `{reply, chips}` shape check from the `/chat` handler:
`parsed && typeof parsed.reply === "string" && Array.isArray(parsed.chips)`.
Only an object can carry both properties; every falsy or non-object
parse result fails the check. -/
def shapeOf : Json → Option (String × List Json)
  | Json.obj fs =>
    match jsGetField fs "reply", jsGetField fs "chips" with
    | some (Json.str r), some (Json.arr cs) => some (r, cs)
    | _, _ => none
  | _ => none

/-- `parsed.chips.map((c) => String(c).trim()).filter(Boolean).slice(0, 6)`. -/
def processChips (cs : List Json) : List String :=
  ((cs.map (fun c => jsTrim (jsToString c))).filter (fun s => s != "")).take 6

/-- `text.match(/{[\s\S]*}/)`: the greedy span from the first el7b to the
last el7d of the text, when both exist in that order. -/
def braceSpan (cs : List Char) : Option (List Char) :=
  let t := cs.dropWhile (fun c => c != '{')
  if t.isEmpty then none
  else
    let r := t.reverse.dropWhile (fun c => c != '}')
    if r.isEmpty then none else some r.reverse

/-- `tryParseJsonFromText` from server.js: whole-text `JSON.parse`, then
`JSON.parse` of the brace span, else `null`.  The guard
`if (!text || typeof text !== "string") return null` becomes the
empty-string test (the handler always passes a string). -/
def tryParseJsonFromText (text : String) : Option Json :=
  if text = "" then none
  else
    match parseJson text with
    | some j => some j
    | none =>
      match braceSpan text.data with
      | some span => parseJson ⟨span⟩
      | none => none

/-- The `/chat` fallback branch:
`reply` is `raw.split("\n")[0].trim()` (raw is always a string here),
`chips` is the fixed default list. -/
def fallbackPair (raw : String) : String × List String :=
  (jsTrim (firstLine raw), ["Apply now"])

/-- The response shaping of the `/chat` handler on the raw model text:
parse, check the shape, post-process, else fall back. -/
def coerceChat (raw : String) : String × List String :=
  match tryParseJsonFromText raw with
  | some parsed =>
    match shapeOf parsed with
    | some p => (jsTrim p.1, processChips p.2)
    | none => fallbackPair raw
  | none => fallbackPair raw

/-! ## ChatGateway: the `/chat` handler -/

/-- The fixed system prompt from server.js (template-literal content;
braces written \x7b/\x7d and apostrophes \x27 for the embedding). -/
def systemPrompt : String :=
  "\nYou are an empathetic MBA counselor for working professionals (1–10 years) in India.\nPrimary goal: help users quickly via concise replies and clickable chips, and provide detailed information when the user explicitly asks for it (lists, comparisons, top college lists, placement details).\n\nOUTPUT STRICTLY as a single JSON object and nothing else. EXACT keys:\n\x7b\n  \"reply\": \"<string>\",      // short OR long depending on user\x27s request (see rules)\n  \"chips\": [\"chip1\",\"chip2\", ...]  // 0-6 suggested quick-reply chips (short strings)\n\x7d\n\nReply rules:\n- If the user\x27s message is a general browsing or quick question, keep \"reply\" short (1–12 words, ideally 1–5). End with a tiny follow-up (1–3 words) that invites continuation (e.g., \"Want options?\", \"Shall I shortlist?\").\n- If the user explicitly asks for lists, detailed comparisons, or \"give list\", \"give colleges\", \"give top colleges in X\", \"show list\", \"detailed\", then provide a **long, complete, helpful reply** in \"reply\" (full sentences, multiple lines allowed). In that case the reply may be several sentences and include a short numbered list if helpful.\n- Always supply \"chips\" (0–6 items). Chips should be 1–4 words each and action oriented (e.g., \"Fees?\", \"Top colleges\", \"Shortlist me\", \"Scholarship options\", \"Apply now\").\n- If input shows conversion intent (contains keywords: fees, apply, admission, eligibility, worth, placement, interested, contact), include at least one conversion chip like \"Apply now\", \"Shortlist me\", or \"Interested?\".\n- Do NOT ask for personal contact details inside the JSON reply. The UI will open lead modal when user chooses conversion chip.\n\nTone and context:\n- Audience: working professionals in India, price sensitivity ~ ₹2–4 Lakh for many online options.\n- Tone: counselor-like, empathetic, concise unless the user asks for details.\n\nExamples (the model must output JSON only):\n\n1) User: \"Fees?\"\n\x7b\n  \"reply\":\"Approx ₹2–4 Lakh. Want top options?\",\n  \"chips\":[\"Top colleges\",\"Scholarship options\",\"Shortlist me\"]\n\x7d\n\n2) User: \"Give top mba colleges in Lucknow\"\n\x7b\n  \"reply\":\"Top MBA colleges in Lucknow:\n1) Institute A — notable for placements and fee ≈ ₹X.\n2) Institute B — strong faculty.\n3) Institute C — affordable option.\nWould you like shortlisted contacts?\",\n  \"chips\":[\"Shortlist me\",\"Fees range\",\"Eligibility\"]\n\x7d\n\n3) If you cannot produce JSON for some reason, return:\n\x7b\"reply\":\"Sorry, try again\",\"chips\":[\"Shortlist me\",\"Apply now\"]\x7d\n\nBe careful: output JSON only.\n"

/-- `messages.slice(-8)`: the last 8 elements. -/
def sliceLast8 (l : List Json) : List Json := l.drop (l.length - 8)

inductive ChatResponse where
  | badRequest (body : Json)
  | ok (reply : String) (chips : List String)
  | serverError (error : String) (details : String)

/-- Mapping of the upstream call outcome to the `/chat` response: on a
raw content text apply the coercion and answer 200, on a thrown error
answer the 500 `chat_error` body. -/
def chatUpstreamResult (res : Except String String) : ChatResponse × Nat :=
  match res with
  | Except.ok raw =>
    let p := coerceChat raw
    (ChatResponse.ok p.1 p.2, 1)
  | Except.error err => (ChatResponse.serverError "chat_error" err, 1)

/-- The `/chat` handler.  `upstream` is the language-model collaborator:
it receives the payload messages and yields either the raw content text
(`response?.choices?.[0]?.message?.content ?? ""` folded in, so a
string) or a thrown error rendered as a string.  The second component
counts upstream invocations. -/
def chatHandler (body : Json) (upstream : List Json → Except String String) :
    ChatResponse × Nat :=
  match jsGet body "messages" with
  | none =>
    (ChatResponse.badRequest (Json.obj [("error", Json.str "messages (array) required")]), 0)
  | some m =>
    if jsTruthy m && m.isArr then
      let msgs : List Json := match m with | Json.arr xs => xs | _ => []
      let payloadMessages :=
        Json.obj [("role", Json.str "system"), ("content", Json.str systemPrompt)]
          :: sliceLast8 msgs
      chatUpstreamResult (upstream payloadMessages)
    else
      (ChatResponse.badRequest (Json.obj [("error", Json.str "messages (array) required")]), 0)

/-! ## LeadForwarder: the `/lead` handler -/

/-- `encodeURIComponent` unreserved characters: alphanumeric and
`- _ . ! ~ * ( )` and the apostrophe (code 39). -/
def uriUnreserved (c : Char) : Bool :=
  c.isAlphanum || c == '-' || c == '_' || c == '.' || c == '!' || c == '~' ||
  c == '*' || (c.toNat == 39) || c == '(' || c == ')'

def hexDigitChar (n : Nat) : Char :=
  if n < 10 then Char.ofNat (48 + n) else Char.ofNat (55 + n)

/-- UTF-8 bytes of one character. -/
def utf8Bytes (c : Char) : List Nat :=
  let n := c.toNat
  if n < 0x80 then [n]
  else if n < 0x800 then [0xC0 + n / 64, 0x80 + n % 64]
  else if n < 0x10000 then [0xE0 + n / 4096, 0x80 + (n / 64) % 64, 0x80 + n % 64]
  else [0xF0 + n / 262144, 0x80 + (n / 4096) % 64, 0x80 + (n / 64) % 64, 0x80 + n % 64]

def encodeURIComponent (s : String) : String :=
  ⟨s.data.flatMap (fun c =>
    if uriUnreserved c then [c]
    else (utf8Bytes c).flatMap (fun b => ['%', hexDigitChar (b / 16), hexDigitChar (b % 16)]))⟩

/-- `String(phone).replace(/\D/g, "")`: only the ASCII digit characters. -/
def cleanPhoneOf (phone : Json) : String :=
  ⟨(jsToString phone).data.filter Char.isDigit⟩

/-- `x || d` for an optional request field. -/
def jsOrDefault (x : Option Json) (d : Json) : Json :=
  match x with
  | some v => if jsTruthy v then v else d
  | none => d

inductive LeadResponse where
  | badRequest (body : Json)
  | ok (body : Json)
  | serverError (body : Json)

/-- The outbound `payload` object built by the `/lead` handler from the
destructured fields (`nm`, `ph` are the truthy `name` and `phone`). -/
def leadPayload (body : Json) (nm ph : Json) (nowIso : String) : Json :=
  Json.obj
    [("name", nm),
     ("phone", Json.str (cleanPhoneOf ph)),
     ("firstMessage", jsOrDefault (jsGet body "firstMessage") (Json.str "")),
     ("conversation", jsOrDefault (jsGet body "conversation") (Json.arr [])),
     ("timestamp", jsOrDefault (jsGet body "timestamp") (Json.str nowIso))]

/-- The outbound `url`: the webhook target, with the shared-secret token
appended as a query parameter when configured. -/
def leadUrl (leadWebhookUrl leadWebhookToken : String) : String :=
  if leadWebhookToken != "" then
    leadWebhookUrl ++ (if leadWebhookUrl.contains '?' then "&" else "?") ++
      "token=" ++ encodeURIComponent leadWebhookToken
  else leadWebhookUrl

/-- Mapping of the webhook call outcome to the `/lead` response, paired
with the single outbound call that was made. -/
def leadUpstreamResult (u : String) (payload : Json) (res : Except String Json) :
    LeadResponse × List (String × Json) :=
  match res with
  | Except.ok data =>
    (LeadResponse.ok (Json.obj
      [("success", Json.bool true),
       ("forwarded", Json.bool true),
       ("appsScriptResponse", if jsTruthy data then data else Json.null)]), [(u, payload)])
  | Except.error err =>
    (LeadResponse.serverError (Json.obj
      [("error", Json.str "lead_forward_error"),
       ("details", Json.str err)]), [(u, payload)])

/-- The `/lead` handler.  `nowIso` stands for `new Date().toISOString()`;
`upstream` is the `axios.post` collaborator taking the target url and
payload and yielding the upstream response data or a thrown error
rendered as a string.  The second component lists the outbound webhook
calls made (url, payload). -/
def leadHandler (body : Json) (leadWebhookUrl leadWebhookToken : String) (nowIso : String)
    (upstream : String → Json → Except String Json) :
    LeadResponse × List (String × Json) :=
  let name? := jsGet body "name"
  let phone? := jsGet body "phone"
  let truthyOpt : Option Json → Bool := fun x =>
    match x with
    | some v => jsTruthy v
    | none => false
  if !(truthyOpt name?) || !(truthyOpt phone?) then
    (LeadResponse.badRequest (Json.obj [("error", Json.str "name & phone required")]), [])
  else if leadWebhookUrl = "" then
    (LeadResponse.serverError (Json.obj [("error", Json.str "lead_webhook_not_configured")]), [])
  else
    let payload := leadPayload body (jsOrDefault name? Json.null) (jsOrDefault phone? Json.null) nowIso
    let url := leadUrl leadWebhookUrl leadWebhookToken
    leadUpstreamResult url payload (upstream url payload)

/-! ## OriginMatcher: `new URL(...).host`, normalization, CORS decision -/

/-- A scheme character after the first: letter, digit, `+`, `-`, `.`. -/
def isSchemeChar (c : Char) : Bool :=
  c.isAlphanum || c == '+' || c == '-' || c == '.'

/-- Split `scheme:rest` when the input begins with a valid URL scheme;
the accumulator carries the scheme characters seen so far, reversed. -/
def splitScheme (acc : List Char) : List Char → Option (List Char × List Char)
  | [] => none
  | c :: rest =>
    if c == ':' then some (acc.reverse, rest)
    else if isSchemeChar c then splitScheme (c :: acc) rest
    else none

/-- WHATWG forbidden host code points (tab, LF, CR are filtered earlier). -/
def forbiddenHostChar (c : Char) : Bool :=
  (c.toNat == 0) || c == ' ' || c == '#' || c == '/' || c == ':' || c == '<' ||
  c == '>' || c == '?' || c == '@' || c == '[' || c == '\\' || c == ']' ||
  c == '^' || c == '|'

/-- Strip the userinfo: the part up to the last `@` of the authority. -/
def afterLastAt (l : List Char) : List Char :=
  (l.reverse.takeWhile (fun c => c != '@')).reverse

/-- Validate port digits: `some none` = no port given, `some (some n)` =
port `n`, `none` = parse failure. -/
def parsePortDigits (l : List Char) : Option (Option Nat) :=
  if l.isEmpty then some none
  else if l.all Char.isDigit then
    let n := l.foldl (fun a c => a * 10 + (c.toNat - 48)) 0
    if n ≤ 65535 then some (some n) else none
  else none

/-- Split an authority (after userinfo removal) into host chars and
port chars; a bracketed IPv6 host keeps its brackets. -/
def splitHostPort (hp : List Char) : Option (List Char × List Char) :=
  if hp.head? = some '[' then
    let h := hp.takeWhile (fun c => c != ']')
    match hp.dropWhile (fun c => c != ']') with
    | ']' :: r2 =>
      match r2 with
      | [] => some (h ++ [']'], [])
      | ':' :: p => some (h ++ [']'], p)
      | _ => none
    | _ => none
  else
    let h := hp.takeWhile (fun c => c != ':')
    match hp.dropWhile (fun c => c != ':') with
    | ':' :: p => some (h, p)
    | _ => some (h, [])

/-- Serialize `host[:port]`, dropping a default port, lowercasing a
special-scheme host, and rejecting forbidden characters and an empty
special-scheme host. -/
def hostPortToString (special : Bool) (scheme : List Char) (hp : List Char) :
    Option (List Char) :=
  match splitHostPort hp with
  | none => none
  | some (h0, p) =>
    let h := if special then h0.map Char.toLower else h0
    if h.head? ≠ some '[' && h.any forbiddenHostChar then none
    else if special && h.isEmpty then none
    else
      match parsePortDigits p with
      | none => none
      | some none => some h
      | some (some n) =>
        if special &&
            ((scheme == "http".data && n == 80) || (scheme == "https".data && n == 443)) then
          some h
        else some (h ++ ':' :: (toString n).data)

/-- Leading/trailing C0-control-or-space trimming plus removal of tab,
LF and CR, as the WHATWG URL parser does before parsing. -/
def urlPreClean (l : List Char) : List Char :=
  (((l.dropWhile (fun c => decide (c.toNat ≤ 32))).reverse.dropWhile
      (fun c => decide (c.toNat ≤ 32))).reverse).filter
    (fun c => c != '\t' && c != '\n' && c != '\r')

/-- A model of `new URL(s).host`: `none` when the constructor throws.
`http`/`https` URLs skip any run of slashes after the colon and read an
authority; other schemes read an authority only after `//`, else the
URL has an opaque path and an empty host. -/
def jsURLHost (s : String) : Option String :=
  let cs := urlPreClean s.data
  match cs with
  | [] => none
  | c0 :: rest0 =>
    if !c0.isAlpha then none
    else
      match splitScheme [c0] rest0 with
      | none => none
      | some (schemeRaw, rest) =>
        let scheme := schemeRaw.map Char.toLower
        if scheme == "http".data || scheme == "https".data then
          let rest := rest.dropWhile (fun c => c == '/' || c == '\\')
          let auth := rest.takeWhile
            (fun c => !(c == '/' || c == '\\' || c == '?' || c == '#'))
          (hostPortToString true scheme (afterLastAt auth)).map (fun l => ⟨l⟩)
        else
          match rest with
          | '/' :: '/' :: r2 =>
            let auth := r2.takeWhile (fun c => !(c == '/' || c == '?' || c == '#'))
            (hostPortToString false scheme (afterLastAt auth)).map (fun l => ⟨l⟩)
          | _ => some ""

/-- `entry.replace(/\/+$/, "")`. -/
def stripTrailingSlashes (s : String) : String :=
  ⟨(s.data.reverse.dropWhile (fun c => c == '/')).reverse⟩

/-- The host a header value is reduced to inside `originToHost`:
`new URL(origin).host` when the constructor succeeds, else the header
with trailing slashes stripped. -/
def extractedHost (origin : String) : String :=
  match jsURLHost origin with
  | some h => h
  | none => stripTrailingSlashes origin

/-- `originToHost` from server.js: `null` for a falsy header. -/
def originToHost (origin : String) : Option String :=
  if origin = "" then none else some (extractedHost origin)

/-- `/^https?:\/\//i.test entry`. -/
def startsWithHttpScheme (s : String) : Bool :=
  let l := s.data.map Char.toLower
  decide (l.take 7 = "http://".data) || decide (l.take 8 = "https://".data)

/-- One loop body of `normalizeAllowedHosts`: skip falsy entries; for a
`http(s)://` entry take `new URL(entry).host` falling back to the raw
entry when the constructor throws; otherwise strip trailing slashes. -/
def normalizeEntry (entry : String) : Option String :=
  if entry = "" then none
  else if startsWithHttpScheme entry then
    some ((jsURLHost entry).getD entry)
  else some (stripTrailingSlashes entry)

/-- `normalizeAllowedHosts` from server.js (the JS `Set` modeled by the
list of added hosts; only membership is ever used). -/
def normalizeAllowedHosts (list : List String) : List String :=
  list.filterMap normalizeEntry

/-- `DEFAULT_ALLOWED_ORIGINS` from server.js. -/
def DEFAULT_ALLOWED_ORIGINS : List String :=
  ["http://127.0.0.1:3000",
   "http://localhost:3000",
   "https://chat-gpt-widget-three.vercel.app",
   "chat-gpt-widget-three.vercel.app"]

/-- `corsOptions.origin` from server.js as a decision function:
`none` models an absent Origin header; the callback outcomes
allow/deny become `true`/`false`. -/
def corsOriginAllows (cfg : List String) (origin : Option String) : Bool :=
  match origin with
  | none => true
  | some o =>
    if o = "" then true
    else
      match originToHost o with
      | none => false
      | some originHost =>
        if originHost = "" then false
        else if originHost ∈ normalizeAllowedHosts cfg then true
        else if o ∈ cfg then true
        else false

/-! ## Helper lemmas -/

theorem dropWhile_idem {α : Type} (p : α → Bool) (l : List α) :
    (l.dropWhile p).dropWhile p = l.dropWhile p := by
  induction l with
  | nil => rfl
  | cons a t ih =>
    by_cases h : p a
    · rw [List.dropWhile_cons_of_pos h]; exact ih
    · rw [List.dropWhile_cons_of_neg h, List.dropWhile_cons_of_neg h]

theorem dropWhile_head_false {α : Type} (p : α → Bool) (a : α) (t : List α)
    (h : (a :: t).dropWhile p = a :: t) : p a = false := by
  have h2 := List.head?_dropWhile_not p (a :: t)
  rw [h] at h2
  simpa using h2

theorem trimRight_stable {α : Type} (p : α → Bool) (y : List α)
    (h : y.dropWhile p = y) :
    ((y.reverse.dropWhile p).reverse).dropWhile p = (y.reverse.dropWhile p).reverse := by
  cases y with
  | nil => rfl
  | cons a t =>
    have hpa : p a = false := dropWhile_head_false p a t h
    have hrev : (a :: t).reverse = t.reverse ++ [a] := by simp
    rw [hrev, List.dropWhile_append]
    by_cases he : (t.reverse.dropWhile p).isEmpty = true
    · rw [if_pos he]
      rw [List.dropWhile_cons_of_neg (by simp [hpa])]
      simp [hpa]
    · rw [if_neg he]
      rw [List.reverse_append]
      simp only [List.reverse_cons, List.reverse_nil, List.nil_append, List.singleton_append]
      rw [List.dropWhile_cons_of_neg (by simp [hpa])]

theorem jsTrimList_idem (cs : List Char) : jsTrimList (jsTrimList cs) = jsTrimList cs := by
  unfold jsTrimList
  have h1 := trimRight_stable jsWsChar (cs.dropWhile jsWsChar) (dropWhile_idem _ _)
  rw [h1, List.reverse_reverse, dropWhile_idem]

theorem jsTrim_idem (s : String) : jsTrim (jsTrim s) = jsTrim s := by
  show (⟨jsTrimList (jsTrimList s.data)⟩ : String) = ⟨jsTrimList s.data⟩
  exact congrArg String.mk (jsTrimList_idem s.data)

theorem processChips_spec (cs : List Json) :
    (processChips cs).length ≤ 6 ∧ ∀ c ∈ processChips cs, c ≠ "" ∧ jsTrim c = c := by
  refine ⟨List.length_take_le 6 _, ?_⟩
  intro c hc
  have hc' := List.mem_of_mem_take hc
  rw [List.mem_filter] at hc'
  obtain ⟨hmem, hne⟩ := hc'
  refine ⟨by simpa using hne, ?_⟩
  rw [List.mem_map] at hmem
  obtain ⟨x, _, hx⟩ := hmem
  rw [← hx, jsTrim_idem]

theorem coerceChat_chips_spec (raw : String) :
    ((coerceChat raw).2).length ≤ 6 ∧ ∀ c ∈ (coerceChat raw).2, c ≠ "" ∧ jsTrim c = c := by
  have hfb : ∀ s : String, ((fallbackPair s).2).length ≤ 6 ∧
      ∀ c ∈ (fallbackPair s).2, c ≠ "" ∧ jsTrim c = c := by
    intro s
    refine ⟨by simp [fallbackPair], ?_⟩
    intro c hc
    simp only [fallbackPair, List.mem_singleton] at hc
    subst hc
    exact ⟨by decide, by decide⟩
  cases htp : tryParseJsonFromText raw with
  | none =>
    have hcc : coerceChat raw = fallbackPair raw := by simp [coerceChat, htp]
    rw [hcc]; exact hfb raw
  | some parsed =>
    cases hs : shapeOf parsed with
    | none =>
      have hcc : coerceChat raw = fallbackPair raw := by simp [coerceChat, htp, hs]
      rw [hcc]; exact hfb raw
    | some pr =>
      have hcc : coerceChat raw = (jsTrim pr.1, processChips pr.2) := by
        simp [coerceChat, htp, hs]
      rw [hcc]; exact processChips_spec pr.2

theorem braceSpan_decompose (pre mid post : List Char)
    (hpre : ∀ c ∈ pre, c ≠ '{')
    (hpost : ∀ c ∈ post, c ≠ '}')
    (hhead : mid.head? = some '{')
    (hlast : mid.getLast? = some '}') :
    braceSpan (pre ++ mid ++ post) = some mid := by
  obtain ⟨tl, rfl⟩ : ∃ tl, mid = '{' :: tl := by
    cases mid with
    | nil => simp at hhead
    | cons a t =>
      simp only [List.head?_cons, Option.some.injEq] at hhead
      exact ⟨t, by rw [hhead]⟩
  have h1 : (pre ++ ('{' :: tl) ++ post).dropWhile (fun c => c != '{') =
      ('{' :: tl) ++ post := by
    rw [List.append_assoc,
      List.dropWhile_append_of_pos (by intro a ha; simpa using hpre a ha)]
    exact List.dropWhile_cons_of_neg (by simp)
  have hu : (('{' :: tl).reverse).head? = some '}' := by
    rw [List.head?_reverse]; exact hlast
  obtain ⟨u', hu'⟩ : ∃ u', ('{' :: tl).reverse = '}' :: u' := by
    cases hrev : ('{' :: tl).reverse with
    | nil => rw [hrev] at hu; simp at hu
    | cons b t2 =>
      rw [hrev] at hu
      simp only [List.head?_cons, Option.some.injEq] at hu
      exact ⟨t2, by rw [hu]⟩
  have h2 : (('{' :: tl) ++ post).reverse.dropWhile (fun c => c != '}') =
      ('{' :: tl).reverse := by
    rw [List.reverse_append,
      List.dropWhile_append_of_pos
        (by intro a ha; rw [List.mem_reverse] at ha; simpa using hpost a ha),
      hu', List.dropWhile_cons_of_neg (by simp)]
  simp only [braceSpan, h1]
  have hne1 : (('{' :: tl) ++ post).isEmpty = false := by simp
  rw [hne1]
  simp only [Bool.false_eq_true, if_false, h2, hu']
  simp only [List.isEmpty_cons, Bool.false_eq_true, if_false, Option.some.injEq]
  rw [show ('}' :: u').reverse = u'.reverse ++ ['}'] by simp, ← List.reverse_cons, ← hu',
    List.reverse_reverse]

theorem mem_normalizeAllowedHosts {cfg : List String} {e h : String}
    (he : e ∈ cfg) (hn : normalizeEntry e = some h) : h ∈ normalizeAllowedHosts cfg :=
  List.mem_filterMap.mpr ⟨e, he, hn⟩

theorem corsOriginAllows_some_iff (cfg : List String) (o : String) (ho : o ≠ "") :
    corsOriginAllows cfg (some o) = true ↔
      (extractedHost o ≠ "" ∧ (extractedHost o ∈ normalizeAllowedHosts cfg ∨ o ∈ cfg)) := by
  simp only [corsOriginAllows, originToHost, if_neg ho]
  by_cases h1 : extractedHost o = "" <;>
    by_cases h2 : extractedHost o ∈ normalizeAllowedHosts cfg <;>
      by_cases h3 : o ∈ cfg <;>
        simp [h1, h2, h3]

theorem string_data_append (a b : String) : (a ++ b).data = a.data ++ b.data := rfl

/-! ## Claims -/

/-- Claim C1, counterexample.  The claim states that a present header is
allowed if and only if its extracted host is in the normalized set or
the raw header equals a configured entry.  With allow-list `["/"]` and
header `"/"`, the raw header equals a configured entry (and the
extracted host `""` is even in the normalized set), yet the code denies:
`originToHost` collapses `"/"` to the empty string and the
`if (!originHost)` guard rejects before either membership test runs. -/
theorem c1_counterexample :
    ¬ (corsOriginAllows ["/"] (some "/") = true ↔
        (extractedHost "/" ∈ normalizeAllowedHosts ["/"] ∨ "/" ∈ (["/"] : List String))) := by
  decide

/-- Claim C1, amended.  An absent or empty Origin header is allowed.  A
present non-empty header is allowed iff its extracted host is non-empty
and that host is in the normalized host set or the raw header equals a
configured entry.  A scheme-less entry `example.com` (with or without a
trailing slash) admits the headers `https://example.com`,
`https://example.com/`, `example.com` and `example.com/`. -/
theorem c1_origin_admission :
    (∀ cfg : List String,
      corsOriginAllows cfg none = true ∧ corsOriginAllows cfg (some "") = true) ∧
    (∀ (cfg : List String) (o : String), o ≠ "" →
      (corsOriginAllows cfg (some o) = true ↔
        (extractedHost o ≠ "" ∧
          (extractedHost o ∈ normalizeAllowedHosts cfg ∨ o ∈ cfg)))) ∧
    (∀ cfg : List String, ("example.com" ∈ cfg ∨ "example.com/" ∈ cfg) →
      (corsOriginAllows cfg (some "https://example.com") = true ∧
       corsOriginAllows cfg (some "https://example.com/") = true ∧
       corsOriginAllows cfg (some "example.com") = true ∧
       corsOriginAllows cfg (some "example.com/") = true)) := by
  refine ⟨fun cfg => ⟨rfl, rfl⟩, fun cfg o ho => corsOriginAllows_some_iff cfg o ho, ?_⟩
  intro cfg hmem
  have hhost : "example.com" ∈ normalizeAllowedHosts cfg := by
    rcases hmem with h | h
    · exact mem_normalizeAllowedHosts h (by decide)
    · exact mem_normalizeAllowedHosts h (by decide)
  have hall : ∀ hdr : String, hdr ≠ "" → extractedHost hdr = "example.com" →
      corsOriginAllows cfg (some hdr) = true := by
    intro hdr h0 hex
    rw [corsOriginAllows_some_iff cfg hdr h0, hex]
    exact ⟨by decide, Or.inl hhost⟩
  exact ⟨hall _ (by decide) (by decide), hall _ (by decide) (by decide),
    hall _ (by decide) (by decide), hall _ (by decide) (by decide)⟩

/-- Witness for C1 at the concrete allow-list `["example.com"]`. -/
theorem c1_witness :
    corsOriginAllows ["example.com"] none = true ∧
    corsOriginAllows ["example.com"] (some "https://example.com/") = true :=
  ⟨(c1_origin_admission.1 ["example.com"]).1,
   (c1_origin_admission.2.2 ["example.com"] (Or.inl (by decide))).2.1⟩

/-- Claim C2, counterexample.  The empty text parses to no JSON, yet the
fallback reply is the trimmed first line of the text, which is empty —
contradicting "never returns an empty reply". -/
theorem c2_counterexample :
    ¬ (tryParseJsonFromText "" = none → (coerceChat "").1 ≠ "") := by
  intro h
  exact h rfl rfl

/-- Claim C2, amended.  For any text from which no JSON can be parsed,
the coercion returns the trimmed first line of the text as `reply`
(which is empty when that line is blank) together with the fixed
non-empty default chips list; the shaping is a total function, so it
never raises to its caller. -/
theorem c2_fallback_shape :
    ∀ text : String, tryParseJsonFromText text = none →
      coerceChat text = (jsTrim (firstLine text), ["Apply now"]) ∧
      (coerceChat text).2 ≠ [] := by
  intro text h
  have hcc : coerceChat text = fallbackPair text := by simp [coerceChat, h]
  exact ⟨by rw [hcc]; rfl, by rw [hcc]; simp [fallbackPair]⟩

/-- Witness for C2 at the concrete non-JSON text `"hi"`. -/
theorem c2_witness :
    coerceChat "hi" = ("hi", ["Apply now"]) ∧ (coerceChat "hi").2 ≠ [] := by
  have h := c2_fallback_shape "hi" rfl
  exact ⟨h.1.trans (by decide), h.2⟩

/-- Claim C3, counterexample.  The text `{"reply":"a","chips":[]}}`
contains a single valid `reply`/`chips` object surrounded by extraneous
text (a lone closing brace), but the greedy first-to-last brace span
includes the junk, its parse fails, and the coercion falls back instead
of extracting the object's fields. -/
theorem c3_counterexample :
    parseJson "\x7b\"reply\":\"a\",\"chips\":[]\x7d" =
      some (Json.obj [("reply", Json.str "a"), ("chips", Json.arr [])]) ∧
    coerceChat "\x7b\"reply\":\"a\",\"chips\":[]\x7d\x7d" =
      ("\x7b\"reply\":\"a\",\"chips\":[]\x7d\x7d", ["Apply now"]) :=
  ⟨rfl, rfl⟩

/-- Claim C3, amended.  When whole-text parsing fails and the text
decomposes as junk before the object's opening brace (containing no
opening brace), a valid `{reply, chips}` object, and junk after it
(containing no closing brace), the coercion extracts exactly that
object's fields: the trimmed reply and the chips coerced to text,
trimmed, non-empty entries only, truncated to at most 6. -/
theorem c3_extraction (pre objStr post : String) (v : Json) (r : String) (cs : List Json)
    (hpre : ∀ c ∈ pre.data, c ≠ '{')
    (hpost : ∀ c ∈ post.data, c ≠ '}')
    (hhead : objStr.data.head? = some '{')
    (hlast : objStr.data.getLast? = some '}')
    (hobj : parseJson objStr = some v)
    (hshape : shapeOf v = some (r, cs))
    (hwhole : parseJson (pre ++ objStr ++ post) = none) :
    coerceChat (pre ++ objStr ++ post) = (jsTrim r, processChips cs) ∧
    (processChips cs).length ≤ 6 ∧ ∀ c ∈ processChips cs, c ≠ "" ∧ jsTrim c = c := by
  have hne : (pre ++ objStr ++ post) ≠ "" := by
    intro h
    have hdata : (pre ++ objStr ++ post).data = [] := by rw [h]
    rw [string_data_append, string_data_append] at hdata
    cases hd : objStr.data with
    | nil => rw [hd] at hhead; simp at hhead
    | cons a t => rw [hd] at hdata; simp at hdata
  have hspan : braceSpan (pre ++ objStr ++ post).data = some objStr.data := by
    rw [string_data_append, string_data_append]
    exact braceSpan_decompose _ _ _ hpre hpost hhead hlast
  have htp : tryParseJsonFromText (pre ++ objStr ++ post) = some v := by
    simp only [tryParseJsonFromText, if_neg hne, hwhole, hspan]
    exact hobj
  have hcc : coerceChat (pre ++ objStr ++ post) = (jsTrim r, processChips cs) := by
    simp [coerceChat, htp, hshape]
  exact ⟨hcc, processChips_spec cs⟩

/-- Witness for C3 at a concrete decomposition. -/
theorem c3_witness :
    coerceChat ("Sure: " ++ "\x7b\"reply\":\" hi \",\"chips\":[\"A\",\"  \",\" B \"]\x7d" ++ " bye") =
      (jsTrim " hi ",
        processChips [Json.str "A", Json.str "  ", Json.str " B "]) :=
  (c3_extraction "Sure: " "\x7b\"reply\":\" hi \",\"chips\":[\"A\",\"  \",\" B \"]\x7d" " bye"
    (Json.obj [("reply", Json.str " hi "),
      ("chips", Json.arr [Json.str "A", Json.str "  ", Json.str " B "])])
    " hi " [Json.str "A", Json.str "  ", Json.str " B "]
    (by decide) (by decide) rfl rfl rfl rfl rfl).1

/-- Shared helper: a missing or non-array `messages` field short-circuits
the `/chat` handler with the fixed 400 body and no upstream call. -/
theorem chatHandler_invalid (body : Json) (upstream : List Json → Except String String)
    (h : jsGet body "messages" = none ∨
      ∃ m, jsGet body "messages" = some m ∧ m.isArr = false) :
    chatHandler body upstream =
      (ChatResponse.badRequest (Json.obj [("error", Json.str "messages (array) required")]), 0) := by
  rcases h with h | ⟨m, hm, harr⟩
  · simp [chatHandler, h]
  · simp [chatHandler, hm, harr]

/-- Claim C4, confirmed.  For any request body whose `messages` field is
missing or not an array, the `/chat` handler returns the 400 response
and the upstream model collaborator is invoked zero times. -/
theorem c4_invalid_rejected_before_upstream (body : Json)
    (upstream : List Json → Except String String)
    (h : jsGet body "messages" = none ∨
      ∃ m, jsGet body "messages" = some m ∧ m.isArr = false) :
    chatHandler body upstream =
      (ChatResponse.badRequest (Json.obj [("error", Json.str "messages (array) required")]), 0) :=
  chatHandler_invalid body upstream h

/-- Witness for C4 at a body with no `messages` field. -/
theorem c4_witness :
    chatHandler (Json.obj []) (fun _ => Except.ok "x") =
      (ChatResponse.badRequest (Json.obj [("error", Json.str "messages (array) required")]), 0) :=
  c4_invalid_rejected_before_upstream (Json.obj []) (fun _ => Except.ok "x") (Or.inl rfl)

/-- Claim C5, counterexample.  The 400 body for invalid input carries the
message `messages (array) required`, not `turns required`. -/
theorem c5_counterexample :
    (chatHandler (Json.obj []) (fun _ => Except.ok "x")).1 =
      ChatResponse.badRequest (Json.obj [("error", Json.str "messages (array) required")]) ∧
    ("messages (array) required" : String) ≠ "turns required" :=
  ⟨rfl, by decide⟩

/-- Claim C5, amended.  For missing or malformed `messages` input the 400
error body is exactly the object with the single field
`error = "messages (array) required"`. -/
theorem c5_error_body (body : Json) (upstream : List Json → Except String String)
    (h : jsGet body "messages" = none ∨
      ∃ m, jsGet body "messages" = some m ∧ m.isArr = false) :
    (chatHandler body upstream).1 =
      ChatResponse.badRequest (Json.obj [("error", Json.str "messages (array) required")]) :=
  congrArg Prod.fst (chatHandler_invalid body upstream h)

/-- Witness for C5 at an array body (destructuring finds no `messages`). -/
theorem c5_witness :
    (chatHandler (Json.arr []) (fun _ => Except.ok "x")).1 =
      ChatResponse.badRequest (Json.obj [("error", Json.str "messages (array) required")]) :=
  c5_error_body (Json.arr []) (fun _ => Except.ok "x") (Or.inl rfl)

/-- Claim C6, confirmed.  Every 200 response of the `/chat` handler
carries at most 6 chips, each a non-empty trimmed string, whatever the
upstream produced. -/
theorem c6_chips_invariant (body : Json) (upstream : List Json → Except String String)
    (r : String) (cs : List String)
    (h : (chatHandler body upstream).1 = ChatResponse.ok r cs) :
    cs.length ≤ 6 ∧ ∀ c ∈ cs, c ≠ "" ∧ jsTrim c = c := by
  have key : ∀ (res : Except String String),
      (chatUpstreamResult res).1 = ChatResponse.ok r cs →
      cs.length ≤ 6 ∧ ∀ c ∈ cs, c ≠ "" ∧ jsTrim c = c := by
    intro res hres
    cases res with
    | ok raw =>
      have h2 : (coerceChat raw).2 = cs := by
        have h' : ChatResponse.ok (coerceChat raw).1 (coerceChat raw).2 =
            ChatResponse.ok r cs := hres
        exact (ChatResponse.ok.inj h').2
      rw [← h2]
      exact coerceChat_chips_spec raw
    | error e => simp [chatUpstreamResult] at hres
  unfold chatHandler at h
  split at h
  · simp at h
  · split at h
    · exact key _ h
    · simp at h

/-- Witness for C6 at a concrete valid request and upstream text. -/
theorem c6_witness :
    (["Apply now"] : List String).length ≤ 6 ∧
    ∀ c ∈ (["Apply now"] : List String), c ≠ "" ∧ jsTrim c = c :=
  c6_chips_invariant (Json.obj [("messages", Json.arr [])]) (fun _ => Except.ok "hello")
    "hello" ["Apply now"] rfl

/-- Shared helper: the `/lead` handler with truthy `name`/`phone` and a
configured webhook url reduces to the upstream-result mapping on the
built payload. -/
theorem leadHandler_forwards (body nm ph : Json) (url token now : String)
    (upstream : String → Json → Except String Json)
    (hname : jsGet body "name" = some nm) (hnt : jsTruthy nm = true)
    (hphone : jsGet body "phone" = some ph) (hpt : jsTruthy ph = true)
    (hurl : url ≠ "") :
    leadHandler body url token now upstream =
      leadUpstreamResult (leadUrl url token) (leadPayload body nm ph now)
        (upstream (leadUrl url token) (leadPayload body nm ph now)) := by
  simp [leadHandler, hname, hphone, hnt, hpt, jsOrDefault, hurl]

/-- Shared helper: the `/lead` handler with truthy `name`/`phone` and no
configured webhook url answers the 500 configuration error and makes no
outbound call. -/
theorem leadHandler_notConfigured (body nm ph : Json) (token now : String)
    (upstream : String → Json → Except String Json)
    (hname : jsGet body "name" = some nm) (hnt : jsTruthy nm = true)
    (hphone : jsGet body "phone" = some ph) (hpt : jsTruthy ph = true) :
    leadHandler body "" token now upstream =
      (LeadResponse.serverError (Json.obj [("error", Json.str "lead_webhook_not_configured")]),
        []) := by
  simp [leadHandler, hname, hphone, hnt, hpt]

theorem leadUpstreamResult_calls (u : String) (payload : Json) (res : Except String Json) :
    (leadUpstreamResult u payload res).2 = [(u, payload)] := by
  cases res <;> rfl

theorem leadUpstreamResult_not_bad (u : String) (payload : Json) (res : Except String Json)
    (b : Json) : (leadUpstreamResult u payload res).1 ≠ LeadResponse.badRequest b := by
  cases res <;> simp [leadUpstreamResult]

theorem leadPayload_phone (body nm ph : Json) (now : String) :
    jsGet (leadPayload body nm ph now) "phone" = some (Json.str (cleanPhoneOf ph)) := rfl

/-- Claim C7, confirmed.  For a forwarded `/lead` request whose `phone`
field is the string `p`, the single outbound payload carries a phone
that is exactly the digit characters of `p`; in particular
`"+91 98765-43210"` is reduced to `"919876543210"`. -/
theorem c7_phone_digits_only (body : Json) (nm : Json) (p : String)
    (url token now : String) (upstream : String → Json → Except String Json)
    (hname : jsGet body "name" = some nm) (hnt : jsTruthy nm = true)
    (hphone : jsGet body "phone" = some (Json.str p)) (hp : p ≠ "")
    (hurl : url ≠ "") :
    ((leadHandler body url token now upstream).2).map (fun c => jsGet c.2 "phone") =
      [some (Json.str ⟨p.data.filter Char.isDigit⟩)] ∧
    cleanPhoneOf (Json.str "+91 98765-43210") = "919876543210" := by
  have hpt : jsTruthy (Json.str p) = true := by simpa [jsTruthy] using hp
  rw [leadHandler_forwards body nm (Json.str p) url token now upstream hname hnt hphone hpt hurl]
  refine ⟨?_, by decide⟩
  rw [leadUpstreamResult_calls]
  simp [leadPayload_phone]
  rfl

/-- Witness for C7 at the spec's concrete phone number. -/
theorem c7_witness :
    ((leadHandler (Json.obj [("name", Json.str "A"), ("phone", Json.str "+91 98765-43210")])
        "https://w" "" "T" (fun _ _ => Except.ok Json.null)).2).map
      (fun c => jsGet c.2 "phone") = [some (Json.str "919876543210")] := by
  have h := c7_phone_digits_only
    (Json.obj [("name", Json.str "A"), ("phone", Json.str "+91 98765-43210")])
    (Json.str "A") "+91 98765-43210" "https://w" "" "T" (fun _ _ => Except.ok Json.null)
    rfl rfl rfl (by decide) (by decide)
  have he : (⟨"+91 98765-43210".data.filter Char.isDigit⟩ : String) = "919876543210" := by
    decide
  exact h.1.trans (by rw [he])

/-- Claim C8, confirmed.  A `/lead` request with truthy `name` and
`phone` while the webhook url is unset answers 500 with the
`lead_webhook_not_configured` code and makes no outbound call. -/
theorem c8_webhook_not_configured (body nm ph : Json) (token now : String)
    (upstream : String → Json → Except String Json)
    (hname : jsGet body "name" = some nm) (hnt : jsTruthy nm = true)
    (hphone : jsGet body "phone" = some ph) (hpt : jsTruthy ph = true) :
    leadHandler body "" token now upstream =
      (LeadResponse.serverError (Json.obj [("error", Json.str "lead_webhook_not_configured")]),
        []) :=
  leadHandler_notConfigured body nm ph token now upstream hname hnt hphone hpt

/-- Witness for C8 at a concrete valid lead body. -/
theorem c8_witness :
    leadHandler (Json.obj [("name", Json.str "A"), ("phone", Json.str "1")]) "" "" "T"
        (fun _ _ => Except.ok Json.null) =
      (LeadResponse.serverError (Json.obj [("error", Json.str "lead_webhook_not_configured")]),
        []) :=
  c8_webhook_not_configured (Json.obj [("name", Json.str "A"), ("phone", Json.str "1")])
    (Json.str "A") (Json.str "1") "" "T" (fun _ _ => Except.ok Json.null) rfl rfl rfl rfl

/-- Claim C9, counterexample.  A successful forward answers 200, but the
diagnostics field of the body is named `appsScriptResponse`; there is no
`upstreamResponse` field as the claim states. -/
theorem c9_counterexample :
    (match (leadHandler (Json.obj [("name", Json.str "A"), ("phone", Json.str "1")])
        "https://w" "" "T" (fun _ _ => Except.ok (Json.str "ok"))).1 with
     | LeadResponse.ok b => (jsGet b "upstreamResponse", jsGet b "appsScriptResponse")
     | _ => (none, none)) = (none, some (Json.str "ok")) := rfl

/-- Claim C9, amended.  A successful forward answers 200 with the body
`{success: true, forwarded: true, appsScriptResponse: data|null}`, where
a falsy upstream response body is replaced by `null`. -/
theorem c9_success_body (body nm ph : Json) (url token now : String) (d : Json)
    (hname : jsGet body "name" = some nm) (hnt : jsTruthy nm = true)
    (hphone : jsGet body "phone" = some ph) (hpt : jsTruthy ph = true)
    (hurl : url ≠ "") :
    (leadHandler body url token now (fun _ _ => Except.ok d)).1 =
      LeadResponse.ok (Json.obj
        [("success", Json.bool true),
         ("forwarded", Json.bool true),
         ("appsScriptResponse", if jsTruthy d then d else Json.null)]) := by
  rw [leadHandler_forwards body nm ph url token now (fun _ _ => Except.ok d)
    hname hnt hphone hpt hurl]
  rfl

/-- Witness for C9 at a concrete successful forward. -/
theorem c9_witness :
    (leadHandler (Json.obj [("name", Json.str "B"), ("phone", Json.str "2")])
        "https://w" "" "T" (fun _ _ => Except.ok (Json.str "done"))).1 =
      LeadResponse.ok (Json.obj
        [("success", Json.bool true),
         ("forwarded", Json.bool true),
         ("appsScriptResponse",
           if jsTruthy (Json.str "done") then Json.str "done" else Json.null)]) :=
  c9_success_body (Json.obj [("name", Json.str "B"), ("phone", Json.str "2")])
    (Json.str "B") (Json.str "2") "https://w" "" "T" (Json.str "done") rfl rfl rfl rfl
    (by decide)

/-- Claim C10, counterexample.  A request whose `phone` is the non-empty
digit-free string `+-()` but which lacks a `name` does get a 400, so
"no 400 is returned" fails as universally stated over such requests. -/
theorem c10_counterexample :
    (leadHandler (Json.obj [("phone", Json.str "+-()")]) "https://w" "" "T"
        (fun _ _ => Except.ok Json.null)).1 =
      LeadResponse.badRequest (Json.obj [("error", Json.str "name & phone required")]) ∧
    ("+-()" : String) ≠ "" ∧ ∀ c ∈ ("+-()" : String).data, c.isDigit = false :=
  ⟨rfl, by decide, by decide⟩

/-- Claim C10, amended.  For a `/lead` request with a truthy `name` and
a non-empty digit-free string `phone`, no 400 is returned and every
forwarded payload carries the empty string as its phone. -/
theorem c10_digitless_phone (body : Json) (nm : Json) (p : String)
    (url token now : String) (upstream : String → Json → Except String Json)
    (hname : jsGet body "name" = some nm) (hnt : jsTruthy nm = true)
    (hphone : jsGet body "phone" = some (Json.str p)) (hp : p ≠ "")
    (hnd : ∀ c ∈ p.data, c.isDigit = false) :
    (∀ b, (leadHandler body url token now upstream).1 ≠ LeadResponse.badRequest b) ∧
    (∀ call ∈ (leadHandler body url token now upstream).2,
      jsGet call.2 "phone" = some (Json.str "")) := by
  have hpt : jsTruthy (Json.str p) = true := by simpa [jsTruthy] using hp
  have hclean : cleanPhoneOf (Json.str p) = "" := by
    have hf : p.data.filter Char.isDigit = [] := by
      rw [List.filter_eq_nil_iff]
      intro a ha
      simp [hnd a ha]
    show (⟨p.data.filter Char.isDigit⟩ : String) = ""
    rw [hf]
  by_cases hurl : url = ""
  · subst hurl
    rw [leadHandler_notConfigured body nm (Json.str p) token now upstream hname hnt hphone hpt]
    exact ⟨fun b => by simp, fun call hc => by simp at hc⟩
  · rw [leadHandler_forwards body nm (Json.str p) url token now upstream hname hnt hphone
      hpt hurl]
    refine ⟨fun b => leadUpstreamResult_not_bad _ _ _ b, fun call hc => ?_⟩
    rw [leadUpstreamResult_calls] at hc
    simp only [List.mem_singleton] at hc
    subst hc
    rw [leadPayload_phone, hclean]

/-- Witness for C10: the same phone with a name present is not rejected. -/
theorem c10_witness :
    (leadHandler (Json.obj [("name", Json.str "A"), ("phone", Json.str "+-()")])
        "https://w" "" "T" (fun _ _ => Except.ok Json.null)).1 ≠
      LeadResponse.badRequest (Json.obj [("error", Json.str "name & phone required")]) :=
  (c10_digitless_phone (Json.obj [("name", Json.str "A"), ("phone", Json.str "+-()")])
    (Json.str "A") "+-()" "https://w" "" "T" (fun _ _ => Except.ok Json.null)
    rfl rfl rfl (by decide) (by decide)).1 _
